import Mathlib

set_option maxRecDepth 20000

/- Shallow embedding of src/git_session_manager_hw.py (class GitSessionManagerHW).

   Python strings are modelled as lists of characters (Str).  The mutable
   ScopeFoundry settings of the hardware component are collected in
   SessionState.  Interaction with the external git repository is modelled in
   two layers:
   - GitQueries: the possibly-failing read-only queries issued by
     refresh_git_status (none models a raised subprocess.CalledProcessError);
   - Repo (introduced further below): a small operational model of the
     repository used by the state-changing operations, which also records the
     sequence of issued git commands in Repo.history. -/

abbrev Str : Type := List Char

/-- Python str.strip removes these whitespace characters. -/
def pyIsSpace (c : Char) : Bool :=
  c == ' ' || c == '\t' || c == '\n' || c == '\r' || c == '\x0b' || c == '\x0c'

/-- Python str.strip(): drop whitespace from both ends. -/
def strTrim (s : Str) : Str :=
  ((s.dropWhile pyIsSpace).reverse.dropWhile pyIsSpace).reverse

/-- Python s.startswith(p). -/
def strStartsWith : Str → Str → Bool
  | _, [] => true
  | [], _ :: _ => false
  | c :: s, p :: ps => c == p && strStartsWith s ps

theorem strStartsWith_nil (s : Str) : strStartsWith s [] = true := by
  cases s <;> rfl

theorem strStartsWith_append_self (p s : Str) : strStartsWith (p ++ s) p = true := by
  induction p with
  | nil => simp [strStartsWith_nil]
  | cons c cs ih => simp [strStartsWith, ih]

theorem strStartsWith_ne_nil {b : Str} {c : Char} {ps : Str}
    (h : strStartsWith b (c :: ps) = true) : b ≠ [] := by
  cases b with
  | nil => simp [strStartsWith] at h
  | cons _ _ => simp

/-- GitSessionManagerHW.SESSION_PREFIX. -/
def sessionTag : Str := "session".data

/-- The session-branch marker used by refresh_git_status: SESSION_PREFIX plus a hyphen. -/
def sessionDash : Str := sessionTag ++ "-".data

/-- The ScopeFoundry settings (LoggedQuantities) of the hardware component that
the session-lifecycle operations read and write. -/
structure SessionState where
  session_name : Str
  manage_submodules : Bool
  current_branch : Str
  current_commit_hash : Str
  session_active : Bool
  session_branch : Str
  parent_branch : Str
  has_uncommitted_changes : Bool
deriving DecidableEq

/-- Results of the three read-only git queries issued by refresh_git_status.
A result of none models the query raising subprocess.CalledProcessError.
statusOut takes the flag saying whether the command carried
the option that makes git ignore submodule changes (appended exactly when
manage_submodules is false). -/
structure GitQueries where
  branchOut : Option Str
  commitOut : Option Str
  statusOut : Bool → Option Str

/-- refresh_git_status (src/git_session_manager_hw.py lines 163-202).
The three queries run in order inside one try block; a failing query raises,
the handler only logs, so fields updated before the failure keep their new
values and the remaining fields keep their previous values. -/
def refresh_git_status (q : GitQueries) (st : SessionState) : SessionState :=
  match q.branchOut with
  | none => st
  | some branchOut =>
    let st := { st with current_branch := branchOut }
    match q.commitOut with
    | none => st
    | some commitOut =>
      let st := { st with current_commit_hash := commitOut }
      match q.statusOut (!st.manage_submodules) with
      | none => st
      | some statusOut =>
        let has_changes := !(strTrim statusOut).isEmpty
        let st := { st with has_uncommitted_changes := has_changes }
        let current_branch := st.current_branch
        let is_session_branch := strStartsWith current_branch sessionDash
        let st := { st with session_active := is_session_branch }
        if is_session_branch then { st with session_branch := current_branch }
        else { st with session_branch := [] }

/-- A sample state used by concrete witnesses below. -/
def stMain : SessionState :=
  { session_name := []
  , manage_submodules := false
  , current_branch := "main".data
  , current_commit_hash := "c0".data
  , session_active := false
  , session_branch := []
  , parent_branch := []
  , has_uncommitted_changes := false }

/-- C1: after a completed refresh_git_status (all three repository queries
succeed), the conditions "session_branch is nonempty", "session_active is
true", and "current_branch starts with the session prefix followed by a
hyphen" are pairwise equivalent, for every possible current branch name; in
particular a branch named exactly "session" (no trailing separator) yields
session_active = false and session_branch = "". -/
theorem c1_refresh_invariant (q : GitQueries) (st : SessionState) (b c s : Str)
    (hb : q.branchOut = some b) (hc : q.commitOut = some c)
    (hs : q.statusOut (!st.manage_submodules) = some s) :
    ((refresh_git_status q st).session_branch ≠ []
        ↔ (refresh_git_status q st).session_active = true)
    ∧ ((refresh_git_status q st).session_active = true
        ↔ strStartsWith (refresh_git_status q st).current_branch sessionDash = true)
    ∧ (b = "session".data →
        (refresh_git_status q st).session_active = false
          ∧ (refresh_git_status q st).session_branch = []) := by
  have hdef : refresh_git_status q st =
      (let st1 := { st with current_branch := b, current_commit_hash := c,
                            has_uncommitted_changes := !(strTrim s).isEmpty }
       let is_session_branch := strStartsWith b sessionDash
       let st2 := { st1 with session_active := is_session_branch }
       if is_session_branch then { st2 with session_branch := b }
       else { st2 with session_branch := [] }) := by
    simp only [refresh_git_status, hb, hc, hs]
  rcases hss : strStartsWith b sessionDash with hf | ht
  · constructor
    · rw [hdef]
      simp [hss]
    · constructor
      · rw [hdef]
        simp [hss]
      · intro hbs
        rw [hdef]
        simp [hss]
  · have hne : b ≠ [] := by
      have : sessionDash = 's' :: "ession-".data := by decide
      exact strStartsWith_ne_nil (this ▸ hss)
    constructor
    · rw [hdef]
      simp [hss, hne]
    · constructor
      · rw [hdef]
        simp [hss]
      · intro hbs
        subst hbs
        have : strStartsWith "session".data sessionDash = false := by decide
        rw [this] at hss
        cases hss

/-- Witness for C1 at a concrete input: the branch is exactly "session", all
three queries succeed, and the refreshed state is inactive with an empty
session branch. -/
theorem c1_refresh_invariant_witness :
    (refresh_git_status
        (GitQueries.mk (some "session".data) (some "c1".data) (fun _ => some []))
        stMain).session_active = false
    ∧ (refresh_git_status
        (GitQueries.mk (some "session".data) (some "c1".data) (fun _ => some []))
        stMain).session_branch = [] :=
  (c1_refresh_invariant
    (GitQueries.mk (some "session".data) (some "c1".data) (fun _ => some []))
    stMain "session".data "c1".data [] rfl rfl rfl).2.2 rfl

/-- C2 counterexample: refresh_git_status is not all-or-nothing.  With a cached
branch "main", if the branch query succeeds with "dev" but the commit-hash
query fails, the handler only logs, so current_branch has already been
updated: the previous cached state is not left exactly as it was. -/
theorem c2_counterexample :
    (GitQueries.mk (some "dev".data) none (fun _ => none)).commitOut = none
    ∧ refresh_git_status (GitQueries.mk (some "dev".data) none (fun _ => none)) stMain
        ≠ stMain := by
  refine ⟨rfl, ?_⟩
  decide

/-- C2 (amended): if the first query (current branch) fails, refresh leaves the
whole previous state unchanged; in general, when one of the queries fails, all
fields that refresh had not yet recomputed at the point of failure retain
their previous values (fields recomputed before the failing query keep their
new values), the error is only logged, and the fields never touched by
refresh (parent_branch, session_name, manage_submodules) are always
preserved. -/
theorem c2_refresh_failure_field_update (q : GitQueries) (st : SessionState) :
    (q.branchOut = none → refresh_git_status q st = st)
    ∧ (q.commitOut = none →
        (refresh_git_status q st).current_commit_hash = st.current_commit_hash
        ∧ (refresh_git_status q st).has_uncommitted_changes = st.has_uncommitted_changes
        ∧ (refresh_git_status q st).session_active = st.session_active
        ∧ (refresh_git_status q st).session_branch = st.session_branch)
    ∧ (q.statusOut (!st.manage_submodules) = none →
        (refresh_git_status q st).has_uncommitted_changes = st.has_uncommitted_changes
        ∧ (refresh_git_status q st).session_active = st.session_active
        ∧ (refresh_git_status q st).session_branch = st.session_branch)
    ∧ (refresh_git_status q st).parent_branch = st.parent_branch
    ∧ (refresh_git_status q st).session_name = st.session_name
    ∧ (refresh_git_status q st).manage_submodules = st.manage_submodules := by
  rcases hb : q.branchOut with _ | b
  · simp [refresh_git_status, hb]
  · rcases hc : q.commitOut with _ | c
    · simp [refresh_git_status, hb, hc]
    · rcases hs : q.statusOut (!st.manage_submodules) with _ | s
      · simp [refresh_git_status, hb, hc, hs]
      · have hdef : refresh_git_status q st =
            (let st1 := { st with current_branch := b, current_commit_hash := c,
                                  has_uncommitted_changes := !(strTrim s).isEmpty }
             let is_session_branch := strStartsWith b sessionDash
             let st2 := { st1 with session_active := is_session_branch }
             if is_session_branch then { st2 with session_branch := b }
             else { st2 with session_branch := [] }) := by
          simp only [refresh_git_status, hb, hc, hs]
        refine ⟨by simp [hb], by simp [hc], by simp [hs], ?_, ?_, ?_⟩ <;>
          · rw [hdef]
            rcases strStartsWith b sessionDash with _ | _ <;> simp

/-- Witness for C2 (amended) at a concrete input where all three queries fail:
the previous state must be fully preserved. -/
theorem c2_refresh_failure_field_update_witness :
    refresh_git_status (GitQueries.mk none none (fun _ => none)) stMain = stMain :=
  (c2_refresh_failure_field_update (GitQueries.mk none none (fun _ => none)) stMain).1 rfl

/-- Model of datetime.datetime.now() for the generated timestamps: the local
time decomposed into calendar fields. -/
structure DateTime where
  year : Nat
  month : Nat
  day : Nat
  hour : Nat
  minute : Nat
  second : Nat
deriving DecidableEq

/-- A two-digit zero-padded decimal strftime field (each of %y %m %d %H %M %S). -/
def fmt2 (n : Nat) : Str := [Nat.digitChar (n / 10 % 10), Nat.digitChar (n % 10)]

/-- The yymmdd-HHMMSS strftime format used for session branch names (line 210). -/
def strftime_yymmdd_hhmmss (t : DateTime) : Str :=
  fmt2 t.year ++ fmt2 t.month ++ fmt2 t.day ++ "-".data
    ++ fmt2 t.hour ++ fmt2 t.minute ++ fmt2 t.second

/-- Python str.isalnum (Unicode-aware).  The classifier is exact for every
code point below U+0100 (ASCII plus the Latin-1 alphanumerics of the Unicode
character database, such as é or ²); code points at or above U+0100 are
treated as alphanumeric, which is right for letters (greek, cyrillic, ...)
but an over-approximation for non-Latin punctuation.  The branch-name
pattern theorems below restrict session names to ASCII, where the classifier
is exact, and the counterexample uses a Latin-1 character, where it is exact
as well. -/
def pyIsAlnum (c : Char) : Bool :=
  let n := c.toNat
  if n < 128 then c.isAlphanum
  else if n < 256 then
    if n == 0xAA || n == 0xB2 || n == 0xB3 || n == 0xB5 || n == 0xB9
        || n == 0xBA || n == 0xBC || n == 0xBD || n == 0xBE then true
    else if 0xC0 ≤ n ∧ n ≤ 0xD6 then true
    else if 0xD8 ≤ n ∧ n ≤ 0xF6 then true
    else if 0xF8 ≤ n then true
    else false
  else true

/-- The session-name cleaning of generate_session_branch_name (lines 212-215):
spaces and underscores are replaced by hyphens, then every character that is
not alphanumeric (Python's Unicode-aware str.isalnum) and not a hyphen or
dot is dropped. -/
def sanitizeSessionName (session_name : Str) : Str :=
  let clean1 := session_name.map (fun c => if c == ' ' then '-' else c)
  let clean2 := clean1.map (fun c => if c == '_' then '-' else c)
  clean2.filter (fun c => pyIsAlnum c || c == '-' || c == '.')

/-- generate_session_branch_name (lines 204-223), called with
session_name=None so that the session_name setting is used.  The DateTime
argument models datetime.datetime.now().  The function also writes the
cleaned name back into the session_name setting. -/
def generate_session_branch_name (t : DateTime) (st : SessionState) : Str × SessionState :=
  let session_name := st.session_name
  let timestamp := strftime_yymmdd_hhmmss t
  if !session_name.isEmpty then
    let clean_name := sanitizeSessionName session_name
    let st := { st with session_name := clean_name }
    (sessionTag ++ "-".data ++ timestamp ++ "-".data ++ clean_name, st)
  else
    (sessionTag ++ "-".data ++ timestamp, st)

/-- Consume exactly n decimal digits from the front of a string. -/
def digitsN : Nat → Str → Option Str
  | 0, s => some s
  | _ + 1, [] => none
  | n + 1, c :: s => if c.isDigit then digitsN n s else none

/-- Consume an exact literal (first argument) from the front of a string. -/
def stripLit : Str → Str → Option Str
  | [], s => some s
  | _ :: _, [] => none
  | c :: p, d :: s => if d == c then stripLit p s else none

/-- Modelled from the spec: the character class of the optional name part of
the session-branch pattern in section 8 (letters, digits, dot, hyphen). -/
def specNameChar (c : Char) : Bool := c.isAlphanum || c == '.' || c == '-'

/-- Modelled from the spec: a decidable matcher for the anchored session-branch
pattern of section 8: the prefix "session", a hyphen, six digits, a hyphen,
six digits, then optionally a hyphen followed by at least one character of
the name class. -/
def matchesSessionBranchPattern (s : Str) : Bool :=
  match stripLit "session-".data s with
  | none => false
  | some s1 =>
    match digitsN 6 s1 with
    | none => false
    | some s2 =>
      match stripLit "-".data s2 with
      | none => false
      | some s3 =>
        match digitsN 6 s3 with
        | none => false
        | some s4 =>
          match s4 with
          | [] => true
          | '-' :: tl => !tl.isEmpty && tl.all specNameChar
          | _ => false

theorem stripLit_append (p s : Str) : stripLit p (p ++ s) = some s := by
  induction p with
  | nil => rfl
  | cons c cs ih => simp [stripLit, ih]

theorem digitsN_append {l : Str} (rest : Str) (h : l.all Char.isDigit = true) :
    digitsN l.length (l ++ rest) = some rest := by
  induction l with
  | nil => rfl
  | cons c cs ih =>
    simp only [List.all_cons, Bool.and_eq_true] at h
    simp [digitsN, h.1, ih h.2]

theorem digitChar_isDigit (n : Nat) : (Nat.digitChar (n % 10)).isDigit = true := by
  have h : n % 10 < 10 := Nat.mod_lt _ (by norm_num)
  generalize n % 10 = d at h
  interval_cases d <;> decide

theorem fmt2_all_digits (n : Nat) : (fmt2 n).all Char.isDigit = true := by
  have h1 := digitChar_isDigit (n / 10)
  have h2 := digitChar_isDigit n
  simp [fmt2, List.all_cons, h1, h2]

theorem digitsN6_fmt2 (a b c : Nat) (rest : Str) :
    digitsN 6 (fmt2 a ++ fmt2 b ++ fmt2 c ++ rest) = some rest := by
  have hlen : (fmt2 a ++ fmt2 b ++ fmt2 c).length = 6 := by simp [fmt2]
  have hd : (fmt2 a ++ fmt2 b ++ fmt2 c).all Char.isDigit = true := by
    simp [List.all_append, fmt2_all_digits]
  have h := digitsN_append (l := fmt2 a ++ fmt2 b ++ fmt2 c) rest hd
  rw [hlen] at h
  simpa [List.append_assoc] using h

theorem matchesSessionBranchPattern_ts (t : DateTime) (s4 : Str) :
    matchesSessionBranchPattern
        (sessionTag ++ "-".data ++ strftime_yymmdd_hhmmss t ++ s4)
      = (match s4 with
         | [] => true
         | '-' :: tl => !tl.isEmpty && tl.all specNameChar
         | _ => false) := by
  have hsplit : sessionTag ++ "-".data ++ strftime_yymmdd_hhmmss t ++ s4
      = "session-".data ++ (fmt2 t.year ++ fmt2 t.month ++ fmt2 t.day
          ++ ("-".data ++ (fmt2 t.hour ++ fmt2 t.minute ++ fmt2 t.second ++ s4))) := by
    simp only [sessionTag, strftime_yymmdd_hhmmss, ← List.append_assoc]
    rw [show (['s','e','s','s','i','o','n'] : Str) ++ ['-'] = ['s','e','s','s','i','o','n','-']
      from by decide]
  rw [hsplit]
  simp only [matchesSessionBranchPattern, stripLit_append, digitsN6_fmt2]

theorem pyIsAlnum_ascii {c : Char} (h : c.toNat < 128) :
    pyIsAlnum c = c.isAlphanum := by
  simp [pyIsAlnum, h]

theorem sanitize_all_specNameChar (s : Str)
    (hascii : s.all (fun c => c.toNat < 128) = true) :
    (sanitizeSessionName s).all specNameChar = true := by
  rw [List.all_eq_true]
  intro c hc
  rw [sanitizeSessionName] at hc
  simp only [List.mem_filter, List.mem_map] at hc
  obtain ⟨⟨c1, ⟨c0, hc0, hh1⟩, hh2⟩, hkeep⟩ := hc
  subst hh1
  subst hh2
  rw [List.all_eq_true] at hascii
  have h0 : c0.toNat < 128 := by simpa using hascii c0 hc0
  have key : ∀ d : Char, d.toNat < 128 →
      (pyIsAlnum d || d == '-' || d == '.') = true → specNameChar d = true := by
    intro d hd hk
    rw [pyIsAlnum_ascii hd] at hk
    simp only [Bool.or_eq_true] at hk
    simp only [specNameChar, Bool.or_eq_true]
    tauto
  refine key _ ?_ hkeep
  split
  · decide
  · split
    · decide
    · exact h0

/-- Sample timestamp used by concrete witnesses below (2025-10-12 12:34:56). -/
def dt0 : DateTime := ⟨25, 10, 12, 12, 34, 56⟩

/-- C8 (amended): for every session name consisting of ASCII characters that
is empty or whose sanitized form is nonempty, generate_session_branch_name
produces a name matching the anchored pattern "session", hyphen, six digits,
hyphen, six digits, and optionally a hyphen followed by at least one
character of the class of letters, digits, dot and hyphen; when the session
name is nonempty the optional part is exactly the sanitized name (spaces -
not all whitespace - and underscores folded to hyphens, all other characters
outside Python's isalnum plus hyphen and dot stripped), and when it is empty
the optional part is absent.  (The unamended claim fails for nonempty names
whose sanitized form is empty, for whitespace other than the space
character, and for non-ASCII alphanumerics, which Python's Unicode-aware
isalnum keeps although the pattern excludes them; see the counterexample.) -/
theorem c8_branch_name_pattern (t : DateTime) (st : SessionState)
    (hascii : st.session_name.all (fun c => c.toNat < 128) = true)
    (h : st.session_name = [] ∨ sanitizeSessionName st.session_name ≠ []) :
    matchesSessionBranchPattern (generate_session_branch_name t st).1 = true
    ∧ (st.session_name ≠ [] →
        (generate_session_branch_name t st).1
          = sessionTag ++ "-".data ++ strftime_yymmdd_hhmmss t ++ "-".data
              ++ sanitizeSessionName st.session_name)
    ∧ (st.session_name = [] →
        (generate_session_branch_name t st).1
          = sessionTag ++ "-".data ++ strftime_yymmdd_hhmmss t) := by
  by_cases hn : st.session_name = []
  · refine ⟨?_, fun hne => absurd hn hne, fun _ => by simp [generate_session_branch_name, hn]⟩
    rw [show (generate_session_branch_name t st).1
        = sessionTag ++ "-".data ++ strftime_yymmdd_hhmmss t
      from by simp [generate_session_branch_name, hn]]
    have hm := matchesSessionBranchPattern_ts t []
    simpa using hm
  · have hclean : sanitizeSessionName st.session_name ≠ [] := h.resolve_left hn
    have hgen : (generate_session_branch_name t st).1
        = sessionTag ++ "-".data ++ strftime_yymmdd_hhmmss t ++ "-".data
            ++ sanitizeSessionName st.session_name := by
      simp [generate_session_branch_name, hn]
    refine ⟨?_, fun _ => hgen, fun he => absurd he hn⟩
    rw [hgen]
    have harr : sessionTag ++ "-".data ++ strftime_yymmdd_hhmmss t ++ "-".data
        ++ sanitizeSessionName st.session_name
        = sessionTag ++ "-".data ++ strftime_yymmdd_hhmmss t
            ++ ('-' :: sanitizeSessionName st.session_name) := by
      rw [show ("-".data : Str) = ['-'] from rfl]
      simp [List.append_assoc]
    rw [harr, matchesSessionBranchPattern_ts]
    rcases hcl : sanitizeSessionName st.session_name with _ | ⟨c, cs⟩
    · exact absurd hcl hclean
    · have hall := sanitize_all_specNameChar st.session_name hascii
      rw [hcl] at hall
      simpa using hall

/-- Witness for C8 (amended) at a concrete input: the ASCII name "Trial A"
sanitizes to the nonempty "Trial-A" and the generated branch matches the
pattern. -/
theorem c8_branch_name_pattern_witness :
    matchesSessionBranchPattern
      (generate_session_branch_name dt0
        { stMain with session_name := "Trial A".data }).1 = true :=
  (c8_branch_name_pattern dt0 { stMain with session_name := "Trial A".data }
    (by decide) (Or.inr (by decide))).1

/-- C8 counterexample: the claim fails as stated, in three ways.  The
nonempty session name "@@@" sanitizes to the empty string, so the generated
branch name ends in a bare hyphen and does not match the claimed pattern.
The code folds only the space character, not all whitespace: a tab is
stripped rather than folded to a hyphen ("a", tab, "b" becomes "ab", not
"a-b").  And Python's Unicode-aware isalnum keeps non-ASCII alphanumerics
such as the Latin-1 letter é, so the name "éa" survives sanitization intact
and yields a branch name that the ASCII pattern rejects. -/
theorem c8_counterexample :
    matchesSessionBranchPattern
        (generate_session_branch_name dt0
          { stMain with session_name := "@@@".data }).1 = false
    ∧ sanitizeSessionName ['a', '\t', 'b'] = "ab".data
    ∧ ¬ sanitizeSessionName ['a', '\t', 'b'] = "a-b".data
    ∧ sanitizeSessionName ['é', 'a'] = ['é', 'a']
    ∧ matchesSessionBranchPattern
        (generate_session_branch_name dt0
          { stMain with session_name := ['é', 'a'] }).1 = false := by
  exact ⟨by decide, by decide, by decide, by decide, by decide⟩

/-- The git commands issued by the session-lifecycle operations, recorded in
the repository history in execution order.  The sub-prefixed commands run
inside a submodule working directory. -/
inductive GitCmd
  | revParseAbbrevHead
  | revParseHead
  | statusPorcelain (ignoreSubmodules : Bool)
  | showRef (branch : Str)
  | checkoutNew (branch : Str)
  | checkout (branch : Str)
  | addAll
  | diffCachedQuiet
  | commitCmd (allowEmpty : Bool) (message : Str)
  | tagAnnotated (tagName : Str) (message : Str)
  | configGetSubmodulePaths
  | subRevParseAbbrevHead (path : Str)
  | subCheckoutNew (path : Str) (branch : Str)
  | subStatusPorcelain (path : Str)
  | subCheckout (path : Str) (branch : Str)
  | submoduleForeachAdd
  | submoduleForeachCommit (message : Str)
deriving DecidableEq

/-- State of one submodule working tree. -/
structure SubState where
  path : Str
  head : Str
  branches : List Str
  dirty : Bool
deriving DecidableEq

/-- Operational model of the repository the operations act on.  statusFull and
statusIgnoreSub are the (already stripped) outputs of the porcelain status
query without and with submodule changes ignored; stagedAfterAdd says whether
staging everything leaves anything in the index (false models ignore rules or
submodule-only diffs); commitCount abstracts the commit id of HEAD;
subParentRecords is the persisted submodule parent-branch file; history is
the trace of executed git commands. -/
structure Repo where
  head : Str
  branches : List Str
  statusFull : Str
  statusIgnoreSub : Str
  stagedAfterAdd : Bool
  commitCount : Nat
  tags : List Str
  subs : List SubState
  subParentRecords : List (Str × Str)
  history : List GitCmd
deriving DecidableEq

/-- Record one executed git command in the repository history. -/
def Repo.log (r : Repo) (c : GitCmd) : Repo := { r with history := r.history ++ [c] }

/-- Effect of a successful git commit: one more commit on the current branch,
a clean working tree and index afterwards. -/
def Repo.doCommit (r : Repo) : Repo :=
  { r with commitCount := r.commitCount + 1
         , statusFull := [], statusIgnoreSub := [], stagedAfterAdd := false }

/-- The always-successful query results refresh_git_status sees on this
repository (the commit hash is abstracted as the decimal commit counter). -/
def Repo.queries (r : Repo) : GitQueries :=
  { branchOut := some r.head
  , commitOut := some (Nat.repr r.commitCount).data
  , statusOut := fun ignoreSubmodules =>
      some (if ignoreSubmodules then r.statusIgnoreSub else r.statusFull) }

/-- refresh_git_status acting on the repository model: the three queries are
recorded in the history and always succeed. -/
def refreshDyn (st : SessionState) (r : Repo) : SessionState × Repo :=
  let r := ((r.log GitCmd.revParseAbbrevHead).log GitCmd.revParseHead).log
      (GitCmd.statusPorcelain (!st.manage_submodules))
  (refresh_git_status r.queries st, r)

/-- Errors raised by the lifecycle operations (Python ValueError or
CalledProcessError); branchNameLoopDiverges is a modelling artifact standing
for the unbounded collision loop never finding a free name. -/
inductive OpError
  | noActiveSessionToCommit
  | noActiveSessionToEnd
  | noParentRecorded
  | checkoutFailed (branch : Str)
  | branchNameLoopDiverges
deriving DecidableEq

/-- Commit message of the empty session-start commit (lines 352-359). -/
def startCommitMsg (branch_name timestamp : Str) : Str :=
  "Start experimental session: ".data ++ branch_name
    ++ "\n\nSession Details:\n- Branch: ".data ++ branch_name
    ++ "\n- Started: ".data ++ timestamp
    ++ "\n- ScopeFoundry Git Session Manager\n\nGenerated with ScopeFoundry Git Session Manager".data

/-- Commit message of the initial-state commit (lines 381-388). -/
def initialCommitMsg (branch_name timestamp : Str) : Str :=
  "Initial state for experimental session: ".data ++ branch_name
    ++ "\n\nSession Details:\n- Branch: ".data ++ branch_name
    ++ "\n- Started: ".data ++ timestamp
    ++ "\n- ScopeFoundry Git Session Manager\n\nGenerated with ScopeFoundry Git Session Manager".data

/-- Final commit message of commit_session_changes (lines 601-605). -/
def finalCommitMsg (branch_name timestamp : Str) : Str :=
  "Final commit for experimental session: ".data ++ branch_name
    ++ "\n\nSession completed at: ".data ++ timestamp
    ++ "\n\nGenerated with ScopeFoundry Git Session Manager".data

/-- Progress commit message of commit_session_changes (lines 607-611). -/
def progressCommitMsg (branch_name timestamp : Str) : Str :=
  "Progress commit for experimental session: ".data ++ branch_name
    ++ "\n\nUpdated at: ".data ++ timestamp
    ++ "\n\nGenerated with ScopeFoundry Git Session Manager".data

/-- Tag message of create_session_tag (lines 410-417). -/
def tagMsgText (tag_type branch_name timestamp : Str) : Str :=
  "Session ".data ++ tag_type ++ " tag for: ".data ++ branch_name
    ++ "\n\nTag Details:\n- Branch: ".data ++ branch_name
    ++ "\n- Created: ".data ++ timestamp
    ++ "\n- ScopeFoundry Git Session Manager\n\nGenerated with ScopeFoundry Git Session Manager".data

/-- The i-th branch name probed by the collision loop of
start_experimental_session: the generated name itself for i = 0, then the
generated name with the numeric suffix i appended. -/
def candidate_name (original : Str) : Nat → Str
  | 0 => original
  | Nat.succ n => original ++ "-".data ++ (Nat.repr (Nat.succ n)).data

/-- The branch-existence probing loop of start_experimental_session (lines
239-253).  Each iteration runs one show-ref probe (check=False); the numeric
suffix is always appended to the original generated name.  The fuel argument
bounds the number of iterations of the unbounded Python loop; with enough
fuel the bound is never hit (see the lemmas below). -/
def probe_branch_name (r : Repo) (original_branch_name : Str) :
    Nat → Str → Nat → Option Str × Repo
  | 0, _, _ => (none, r)
  | Nat.succ fuel, branch_name, counter =>
    let r1 := r.log (GitCmd.showRef branch_name)
    if r1.branches.contains branch_name then
      probe_branch_name r1 original_branch_name fuel
        (original_branch_name ++ "-".data ++ (Nat.repr counter).data) (counter + 1)
    else (some branch_name, r1)

/-- Python s.replace(pat, repl, 1): replace the first occurrence only. -/
def replaceFirst (s pat repl : Str) : Str :=
  match s with
  | [] => []
  | c :: rest =>
    if strStartsWith (c :: rest) pat then repl ++ (c :: rest).drop pat.length
    else c :: replaceFirst rest pat repl

/-- One step per submodule of start_session_in_submodules (lines 296-327):
query the submodule branch, record it, create and switch to the session
branch; a failing submodule checkout is logged and skipped, but its parent
record is kept because the dictionary entry is written before the checkout
attempt. -/
def startInSubsGo (branch_name : Str) :
    List SubState → Repo → List SubState × List (Str × Str) × Repo
  | [], r => ([], [], r)
  | sub :: rest, r =>
    let r := (r.log (GitCmd.subRevParseAbbrevHead sub.path)).log
        (GitCmd.subCheckoutNew sub.path branch_name)
    if sub.branches.contains branch_name then
      let res := startInSubsGo branch_name rest r
      (sub :: res.1, (sub.path, sub.head) :: res.2.1, res.2.2)
    else
      let sub2 := { sub with head := branch_name, branches := branch_name :: sub.branches }
      let res := startInSubsGo branch_name rest r
      (sub2 :: res.1, (sub.path, sub.head) :: res.2.1, res.2.2)

/-- start_session_in_submodules (lines 285-337): get_submodules reads the
submodule declaration (modelled by the stored submodule list), a session
branch is created in each submodule, and the path-to-parent-branch mapping is
persisted (overwriting the previous file) when nonempty. -/
def start_session_in_submodules (branch_name : Str) (r : Repo) : Repo :=
  let r := r.log GitCmd.configGetSubmodulePaths
  if r.subs.isEmpty then r
  else
    let res := startInSubsGo branch_name r.subs r
    let r2 := { res.2.2 with subs := res.1 }
    if res.2.1.isEmpty then r2 else { r2 with subParentRecords := res.2.1 }

/-- Lookup in the persisted path-to-branch mapping; a later line for the same
path overwrites an earlier one, as in the dictionary built from the file. -/
def lookupRecord : List (Str × Str) → Str → Option Str
  | [], _ => none
  | (p, b) :: rest, q =>
    match lookupRecord rest q with
    | some x => some x
    | none => if p == q then some b else none

/-- One step per submodule of return_submodules_to_parent_branch (lines
535-574): skip a dirty submodule, skip a submodule with no (or an empty)
recorded parent branch, otherwise check out the recorded branch (a checkout
failure is logged and skipped). -/
def returnSubsGo (recs : List (Str × Str)) :
    List SubState → Repo → List SubState × Repo
  | [], r => ([], r)
  | sub :: rest, r =>
    let r := r.log (GitCmd.subStatusPorcelain sub.path)
    if sub.dirty then
      let res := returnSubsGo recs rest r
      (sub :: res.1, res.2)
    else
      match lookupRecord recs sub.path with
      | none =>
        let res := returnSubsGo recs rest r
        (sub :: res.1, res.2)
      | some parent_branch =>
        if parent_branch.isEmpty then
          let res := returnSubsGo recs rest r
          (sub :: res.1, res.2)
        else
          let r := r.log (GitCmd.subCheckout sub.path parent_branch)
          if sub.branches.contains parent_branch then
            let res := returnSubsGo recs rest r
            ({ sub with head := parent_branch } :: res.1, res.2)
          else
            let res := returnSubsGo recs rest r
            (sub :: res.1, res.2)

/-- return_submodules_to_parent_branch (lines 515-577). -/
def return_submodules_to_parent_branch (r : Repo) : Repo :=
  let r := r.log GitCmd.configGetSubmodulePaths
  if r.subs.isEmpty then r
  else
    let res := returnSubsGo r.subParentRecords r.subs r
    { res.2 with subs := res.1 }

/-- commit_submodule_changes (lines 455-484): best-effort stage-all and commit
in every submodule via git submodule foreach; the commit runs with
check=False, a submodule with nothing to commit is not an error. -/
def commit_submodule_changes (timestamp : Str) (final : Bool) (st : SessionState)
    (r : Repo) : Repo :=
  let branch_name := st.session_branch
  let commit_message :=
    if final then finalCommitMsg branch_name timestamp
    else progressCommitMsg branch_name timestamp
  let r := r.log GitCmd.submoduleForeachAdd
  let r := r.log (GitCmd.submoduleForeachCommit commit_message)
  { r with subs := r.subs.map (fun sub => { sub with dirty := false }) }

/-- commit_initial_session_state (lines 339-401).  The status query runs with
check=False; if its stripped output is empty, one empty commit marks the
session start; otherwise everything is staged, the staged diff is re-checked
(git diff --cached --quiet returning 0 means nothing was actually staged) and
a commit is made only when something remains staged.  In this model the
commit commands themselves cannot fail, so the CalledProcessError handler of
the source is unreachable. -/
def commit_initial_session_state (timestamp branch_name : Str) (r : Repo) :
    Option OpError × Repo :=
  let r := r.log (GitCmd.statusPorcelain false)
  if (strTrim r.statusFull).isEmpty then
    let commit_message := startCommitMsg branch_name timestamp
    let r := r.log (GitCmd.commitCmd true commit_message)
    (none, r.doCommit)
  else
    let r := r.log GitCmd.addAll
    let r := r.log GitCmd.diffCachedQuiet
    if !r.stagedAfterAdd then
      (none, r)
    else
      let commit_message := initialCommitMsg branch_name timestamp
      let r := r.log (GitCmd.commitCmd false commit_message)
      (none, r.doCommit)

/-- create_session_tag (lines 403-426): best-effort creation of an annotated
tag; a failure would only be logged, and in this model the tag command
succeeds. -/
def create_session_tag (timestamp branch_name tag_type : Str) (r : Repo) : Repo :=
  let tag_name := tag_type ++ "-".data ++ branch_name
  let tag_message := tagMsgText tag_type branch_name timestamp
  let r := r.log (GitCmd.tagAnnotated tag_name tag_message)
  { r with tags := r.tags ++ [tag_name] }

/-- The tail of start_experimental_session after the new branch has been
created (lines 270-279): commit the initial state, create the start tag
(best-effort) and refresh. -/
def start_finishing (msg_timestamp branch_name : Str) (st : SessionState)
    (r : Repo) : Option OpError × SessionState × Repo :=
  match commit_initial_session_state msg_timestamp branch_name r with
  | (some e, r) => (some e, st, r)
  | (none, r) =>
    let r := create_session_tag msg_timestamp branch_name "start".data r
    let res := refreshDyn st r
    (none, res.1, res.2)

/-- start_experimental_session (lines 225-283).  The DateTime argument models
the now() of generate_session_branch_name and msg_timestamp the now() of the
commit and tag messages.  The collision loop receives fuel one larger than
the number of existing branches; under the hypotheses of the theorems below
the loop terminates before this bound. -/
def start_experimental_session (t : DateTime) (msg_timestamp : Str)
    (st : SessionState) (r : Repo) : Option OpError × SessionState × Repo :=
  let parent_branch := st.current_branch
  let st := { st with parent_branch := parent_branch }
  let gen := generate_session_branch_name t st
  let original_branch_name := gen.1
  let st := gen.2
  match probe_branch_name r original_branch_name (r.branches.length + 1)
      original_branch_name 1 with
  | (none, r) => (some OpError.branchNameLoopDiverges, st, r)
  | (some branch_name, r) =>
    let st :=
      if branch_name ≠ original_branch_name then
        { st with session_name := replaceFirst branch_name (sessionTag ++ "-".data) [] }
      else st
    let r := r.log (GitCmd.checkoutNew branch_name)
    if r.branches.contains branch_name then
      (some (OpError.checkoutFailed branch_name), st, r)
    else
      let r := { r with head := branch_name, branches := branch_name :: r.branches }
      let r := if st.manage_submodules then start_session_in_submodules branch_name r
               else r
      start_finishing msg_timestamp branch_name st r

/-- commit_session_changes (lines 579-628).  The ValueError for a missing
session is raised before any git command; with no cached uncommitted changes
the operation logs and returns without touching the repository; otherwise
submodules are committed first when enabled, everything is staged and
committed, and the status is refreshed.  A commit failing because nothing was
actually staged is treated as success and skips the refresh. -/
def commit_session_changes (timestamp : Str) (final : Bool) (st : SessionState)
    (r : Repo) : Option OpError × SessionState × Repo :=
  if !st.session_active then (some OpError.noActiveSessionToCommit, st, r)
  else if !st.has_uncommitted_changes then (none, st, r)
  else
    let r := if st.manage_submodules then commit_submodule_changes timestamp final st r
             else r
    let r := r.log GitCmd.addAll
    let branch_name := st.session_branch
    let commit_message :=
      if final then finalCommitMsg branch_name timestamp
      else progressCommitMsg branch_name timestamp
    let r := r.log (GitCmd.commitCmd false commit_message)
    if r.stagedAfterAdd then
      let r := r.doCommit
      let res := refreshDyn st r
      (none, res.1, res.2)
    else
      (none, st, r)

/-- end_experimental_session (lines 428-453): requires an active session,
commits a final snapshot when the cached dirty flag is set, then refreshes;
the session branch is never left. -/
def end_experimental_session (timestamp : Str) (st : SessionState) (r : Repo) :
    Option OpError × SessionState × Repo :=
  if !st.session_active then (some OpError.noActiveSessionToEnd, st, r)
  else
    if st.has_uncommitted_changes then
      match commit_session_changes timestamp true st r with
      | (some e, st, r) => (some e, st, r)
      | (none, st, r) =>
        let res := refreshDyn st r
        (none, res.1, res.2)
    else
      let res := refreshDyn st r
      (none, res.1, res.2)

/-- return_to_parent_branch (lines 486-513): fails with the no-parent-recorded
error before issuing any git command when parent_branch is empty; otherwise
ends the session if still active, restores submodules when enabled, checks
out the parent branch and refreshes. -/
def return_to_parent_branch (timestamp : Str) (st : SessionState) (r : Repo) :
    Option OpError × SessionState × Repo :=
  if st.parent_branch.isEmpty then (some OpError.noParentRecorded, st, r)
  else
    let parent_branch := st.parent_branch
    let step :=
      if st.session_active then end_experimental_session timestamp st r
      else (none, st, r)
    match step with
    | (some e, st, r) => (some e, st, r)
    | (none, st, r) =>
      let r := if st.manage_submodules then return_submodules_to_parent_branch r else r
      let r := r.log (GitCmd.checkout parent_branch)
      if r.branches.contains parent_branch then
        let r := { r with head := parent_branch }
        let res := refreshDyn st r
        (none, res.1, res.2)
      else
        (some (OpError.checkoutFailed parent_branch), st, r)

theorem probe_step_exists {r : Repo} {orig name : Str} {fuel counter : Nat}
    (h : name ∈ r.branches) :
    probe_branch_name r orig (fuel + 1) name counter
      = probe_branch_name (r.log (GitCmd.showRef name)) orig fuel
          (orig ++ "-".data ++ (Nat.repr counter).data) (counter + 1) := by
  simp [probe_branch_name, Repo.log, h]

theorem probe_step_free {r : Repo} {orig name : Str} {fuel counter : Nat}
    (h : name ∉ r.branches) :
    probe_branch_name r orig (fuel + 1) name counter
      = (some name, r.log (GitCmd.showRef name)) := by
  simp [probe_branch_name, Repo.log, h]

theorem probe_branch_name_spec (orig : Str) (k : Nat) :
    ∀ (fuel j : Nat) (r : Repo), j ≤ k → k - j < fuel →
      (∀ i, j ≤ i → i < k → r.branches.contains (candidate_name orig i) = true) →
      r.branches.contains (candidate_name orig k) = false →
      probe_branch_name r orig fuel (candidate_name orig j) (j + 1)
        = (some (candidate_name orig k),
           { r with history := r.history
               ++ (List.range' j (k + 1 - j)).map (fun i => GitCmd.showRef (candidate_name orig i)) }) := by
  intro fuel
  induction fuel with
  | zero => intro j r hjk hfuel _ _; omega
  | succ fuel ih =>
    intro j r hjk hfuel hcoll hfree
    have hfree2 : candidate_name orig k ∉ r.branches := by simpa using hfree
    by_cases hje : j = k
    · subst hje
      have hone : j + 1 - j = 1 := by omega
      rw [probe_step_free hfree2, hone]
      simp [Repo.log, List.range']
    · have hjlt : j < k := lt_of_le_of_ne hjk hje
      have hcj : candidate_name orig j ∈ r.branches := by
        simpa using hcoll j le_rfl hjlt
      have hstep := ih (j + 1) (r.log (GitCmd.showRef (candidate_name orig j)))
          (by omega) (by omega)
          (fun i hji hik => by
            simpa [Repo.log] using hcoll i (by omega) hik)
          (by simpa [Repo.log] using hfree)
      have hname : candidate_name orig (j + 1)
          = orig ++ "-".data ++ (Nat.repr (j + 1)).data := by
        simp [candidate_name]
      rw [hname] at hstep
      have hrange : List.range' j (k + 1 - j) = j :: List.range' (j + 1) (k + 1 - (j + 1)) := by
        have h1 : k + 1 - j = (k + 1 - (j + 1)) + 1 := by omega
        rw [h1, List.range']
      rw [probe_step_exists hcj, hstep]
      simp [Repo.log, hrange, List.append_assoc]

/-- C3: whenever the generated base branch name already exists,
start_experimental_session's collision loop probes the base name and then the
base name with the numeric suffixes 1, 2, 3, ... appended, in that order (one
show-ref probe per name, as recorded in the history), and returns the first
free name; k consecutive collisions on the base name and its first k-1
suffixed variants yield the suffix k, and every suffix is appended to the
original generated name, never to an already-suffixed name. -/
theorem c3_collision_probing (r : Repo) (orig : Str) (k fuel : Nat)
    (hfuel : k < fuel)
    (hcoll : ∀ i, i < k → r.branches.contains (candidate_name orig i) = true)
    (hfree : r.branches.contains (candidate_name orig k) = false) :
    probe_branch_name r orig fuel orig 1
      = (some (candidate_name orig k),
         { r with history := r.history
             ++ (List.range (k + 1)).map (fun i => GitCmd.showRef (candidate_name orig i)) }) := by
  have h := probe_branch_name_spec orig k fuel 0 r (Nat.zero_le k) (by omega)
      (fun i _ hik => hcoll i hik) hfree
  simpa [candidate_name, List.range_eq_range'] using h

/-- A sample repository used by concrete witnesses below. -/
def rMain : Repo :=
  { head := "main".data
  , branches := ["main".data]
  , statusFull := []
  , statusIgnoreSub := []
  , stagedAfterAdd := false
  , commitCount := 0
  , tags := []
  , subs := []
  , subParentRecords := []
  , history := [] }

/-- A repository in which the base name "sX" and its variants "sX-1" and
"sX-2" already exist as branches. -/
def rProbe : Repo :=
  { rMain with branches := ["main".data, "sX".data, "sX-1".data, "sX-2".data] }

/-- Witness for C3 at a concrete input: three consecutive collisions on "sX",
"sX-1", "sX-2" produce "sX-3", probing the four names in order. -/
theorem c3_collision_probing_witness :
    probe_branch_name rProbe "sX".data 5 "sX".data 1
      = (some (candidate_name "sX".data 3),
         { rProbe with history := rProbe.history
             ++ (List.range 4).map (fun i => GitCmd.showRef (candidate_name "sX".data i)) }) :=
  c3_collision_probing rProbe "sX".data 3 5 (by omega)
    (by intro i hi; interval_cases i <;> decide) (by decide)

/-- C5: the initial-state commit on session start follows exactly the coded
algorithm: if the working-tree status query reports nothing, exactly one
empty commit (allow-empty) is created; if it reports changes, everything is
staged, the staged diff is re-checked, and a commit is created only if
something remains staged; otherwise the operation returns without committing
and without error. -/
theorem c5_initial_commit_algorithm (ts bn : Str) (ra rb rc : Repo)
    (ha : (strTrim ra.statusFull).isEmpty = true)
    (hb1 : (strTrim rb.statusFull).isEmpty = false) (hb2 : rb.stagedAfterAdd = true)
    (hc1 : (strTrim rc.statusFull).isEmpty = false) (hc2 : rc.stagedAfterAdd = false) :
    (commit_initial_session_state ts bn ra
      = (none, { ra with
          commitCount := ra.commitCount + 1
        , statusFull := [], statusIgnoreSub := [], stagedAfterAdd := false
        , history := ra.history ++ [GitCmd.statusPorcelain false, GitCmd.commitCmd true (startCommitMsg bn ts)] }))
    ∧ (commit_initial_session_state ts bn rb
      = (none, { rb with
          commitCount := rb.commitCount + 1
        , statusFull := [], statusIgnoreSub := [], stagedAfterAdd := false
        , history := rb.history ++ [GitCmd.statusPorcelain false, GitCmd.addAll, GitCmd.diffCachedQuiet, GitCmd.commitCmd false (initialCommitMsg bn ts)] }))
    ∧ (commit_initial_session_state ts bn rc
      = (none, { rc with
          history := rc.history ++ [GitCmd.statusPorcelain false, GitCmd.addAll, GitCmd.diffCachedQuiet] })) := by
  refine ⟨?_, ?_, ?_⟩ <;>
    simp [commit_initial_session_state, Repo.log, Repo.doCommit, ha, hb1, hb2, hc1, hc2]

/-- A repository with a dirty working tree in which staging stages something. -/
def rDirtyStaged : Repo :=
  { rMain with statusFull := "M f".data, statusIgnoreSub := "M f".data, stagedAfterAdd := true }

/-- A repository with a dirty working tree in which staging stages nothing
(ignore rules or submodule-only changes). -/
def rDirtyUnstaged : Repo :=
  { rMain with statusFull := "M f".data, statusIgnoreSub := "M f".data }

/-- Witness for C5 at concrete inputs: a clean tree yields exactly one
allow-empty commit; a dirty tree where nothing can be staged yields no commit
and no error. -/
theorem c5_initial_commit_algorithm_witness :
    commit_initial_session_state [] [] rMain
      = (none, { rMain with
          commitCount := rMain.commitCount + 1
        , statusFull := [], statusIgnoreSub := [], stagedAfterAdd := false
        , history := rMain.history ++ [GitCmd.statusPorcelain false, GitCmd.commitCmd true (startCommitMsg [] [])] })
    ∧ commit_initial_session_state [] [] rDirtyUnstaged
      = (none, { rDirtyUnstaged with
          history := rDirtyUnstaged.history ++ [GitCmd.statusPorcelain false, GitCmd.addAll, GitCmd.diffCachedQuiet] }) := by
  have h := c5_initial_commit_algorithm [] [] rMain rDirtyStaged rDirtyUnstaged
    (by decide) (by decide) (by decide) (by decide) (by decide)
  exact ⟨h.1, h.2.2⟩

/-- A sample session branch name. -/
def sBr : Str := "session-250101-000000".data

/-- A sample state with an active session and a clean cached dirty flag. -/
def stActive : SessionState :=
  { session_name := []
  , manage_submodules := false
  , current_branch := sBr
  , current_commit_hash := "c0".data
  , session_active := true
  , session_branch := sBr
  , parent_branch := "main".data
  , has_uncommitted_changes := false }

/-- C6 (amended): commit_session_changes raises the no-active-session error if
and only if no session is active, and does so before any repository command;
with an active session and the cached has_uncommitted_changes flag false it
returns success without creating a commit and without mutating the
repository, and,提 provided the working tree is indeed clean,
has_uncommitted_changes is still false after a subsequent refresh.  (The
unamended claim omits the clean-tree proviso; see the counterexample.) -/
theorem c6_commit_guards (ts : Str) (final : Bool)
    (st0 : SessionState) (r0 : Repo) (st1 : SessionState) (r1 : Repo)
    (h0 : st0.session_active = false)
    (h1a : st1.session_active = true) (h1c : st1.has_uncommitted_changes = false)
    (h1f : (strTrim r1.statusFull).isEmpty = true)
    (h1i : (strTrim r1.statusIgnoreSub).isEmpty = true) :
    (commit_session_changes ts final st0 r0
        = (some OpError.noActiveSessionToCommit, st0, r0))
    ∧ (commit_session_changes ts final st1 r1 = (none, st1, r1))
    ∧ ((refreshDyn (commit_session_changes ts final st1 r1).2.1
          (commit_session_changes ts final st1 r1).2.2).1.has_uncommitted_changes = false)
    ∧ (∀ (st2 : SessionState) (r2 : Repo), st2.session_active = true →
        (commit_session_changes ts final st2 r2).1 ≠ some OpError.noActiveSessionToCommit) := by
  have key : commit_session_changes ts final st1 r1 = (none, st1, r1) := by
    simp [commit_session_changes, h1a, h1c]
  refine ⟨by simp [commit_session_changes, h0], key, ?_, ?_⟩
  · rw [key]
    rcases hm : st1.manage_submodules with _ | _ <;>
      · simp [refreshDyn, Repo.log, Repo.queries, refresh_git_status, hm, h1f, h1i]
        split <;> rfl
  · intro st2 r2 h2
    rcases hd : st2.has_uncommitted_changes with _ | _
    · simp [commit_session_changes, h2, hd]
    · rcases hsg : (if st2.manage_submodules then commit_submodule_changes ts final st2 r2
          else r2).stagedAfterAdd with _ | _ <;>
        simp [commit_session_changes, h2, hd, Repo.log, hsg]

/-- Witness for C6 (amended) at concrete inputs: an inactive state yields the
no-active-session error with nothing changed; an active state with a clean
cached flag and a clean repository is a no-op. -/
theorem c6_commit_guards_witness :
    commit_session_changes [] false stMain rMain
        = (some OpError.noActiveSessionToCommit, stMain, rMain)
    ∧ commit_session_changes [] false stActive rMain = (none, stActive, rMain) := by
  have h := c6_commit_guards [] false stMain rMain stActive rMain rfl rfl rfl
    (by decide) (by decide)
  exact ⟨h.1, h.2.1⟩

/-- C6 counterexample: with an active session, a cached dirty flag that is
false, but a working tree that is actually dirty, commit_session_changes is
still a no-op (it trusts the cached flag), but has_uncommitted_changes is
true, not false, after a subsequent refresh: the claim as stated fails. -/
theorem c6_counterexample :
    commit_session_changes [] false stActive rDirtyUnstaged
        = (none, stActive, rDirtyUnstaged)
    ∧ (refreshDyn stActive rDirtyUnstaged).1.has_uncommitted_changes = true := by
  exact ⟨by decide, by decide⟩

theorem refreshDyn_repo (st : SessionState) (r : Repo) :
    (refreshDyn st r).2 = { r with history := r.history ++ [GitCmd.revParseAbbrevHead, GitCmd.revParseHead, GitCmd.statusPorcelain (!st.manage_submodules)] } := by
  simp [refreshDyn, Repo.log]

theorem refreshDyn_state (st : SessionState) (r : Repo) :
    (refreshDyn st r).1 = refresh_git_status r.queries st := by
  simp [refreshDyn, Repo.log, Repo.queries]

theorem refresh_queries_state (st : SessionState) (r : Repo) :
    refresh_git_status r.queries st
      = { st with
          current_branch := r.head
        , current_commit_hash := (Nat.repr r.commitCount).data
        , has_uncommitted_changes :=
            !(strTrim (if !st.manage_submodules then r.statusIgnoreSub
                       else r.statusFull)).isEmpty
        , session_active := strStartsWith r.head sessionDash
        , session_branch := if strStartsWith r.head sessionDash then r.head else [] } := by
  rcases h : strStartsWith r.head sessionDash with _ | _ <;>
    simp [refresh_git_status, Repo.queries, h]

theorem commit_submodule_changes_eq (ts : Str) (final : Bool) (st : SessionState)
    (r : Repo) :
    commit_submodule_changes ts final st r
      = { r with
          subs := r.subs.map (fun sub => { sub with dirty := false })
        , history := r.history ++ [GitCmd.submoduleForeachAdd, GitCmd.submoduleForeachCommit (if final then finalCommitMsg st.session_branch ts else progressCommitMsg st.session_branch ts)] } := by
  rcases final with _ | _ <;> simp [commit_submodule_changes, Repo.log]

theorem returnSubsGo_preserves (recs : List (Str × Str)) :
    ∀ (l : List SubState) (r : Repo),
      (returnSubsGo recs l r).2.head = r.head
      ∧ (returnSubsGo recs l r).2.branches = r.branches
      ∧ (returnSubsGo recs l r).2.statusFull = r.statusFull
      ∧ (returnSubsGo recs l r).2.statusIgnoreSub = r.statusIgnoreSub
      ∧ (returnSubsGo recs l r).2.stagedAfterAdd = r.stagedAfterAdd
      ∧ (returnSubsGo recs l r).2.commitCount = r.commitCount
      ∧ (returnSubsGo recs l r).2.subs = r.subs := by
  intro l
  induction l with
  | nil => intro r; simp [returnSubsGo]
  | cons sub rest ih =>
    intro r
    rcases hdirty : sub.dirty with _ | _
    · rcases hl : lookupRecord recs sub.path with _ | pb
      · simp [returnSubsGo, Repo.log, hdirty, hl, ih]
      · rcases hpe : pb.isEmpty with _ | _
        · by_cases hct : pb ∈ sub.branches <;>
            simp [returnSubsGo, Repo.log, hdirty, hl, hpe, hct, ih]
        · simp [returnSubsGo, Repo.log, hdirty, hl, hpe, ih]
    · simp [returnSubsGo, Repo.log, hdirty, ih]

theorem return_submodules_preserves (r : Repo) :
    (return_submodules_to_parent_branch r).head = r.head
    ∧ (return_submodules_to_parent_branch r).branches = r.branches
    ∧ (return_submodules_to_parent_branch r).statusFull = r.statusFull
    ∧ (return_submodules_to_parent_branch r).statusIgnoreSub = r.statusIgnoreSub
    ∧ (return_submodules_to_parent_branch r).stagedAfterAdd = r.stagedAfterAdd
    ∧ (return_submodules_to_parent_branch r).commitCount = r.commitCount := by
  rcases hs : r.subs.isEmpty with _ | _ <;>
    simp [return_submodules_to_parent_branch, Repo.log, hs, returnSubsGo_preserves]

theorem end_session_facts (ts : Str) (st : SessionState) (r : Repo)
    (ha : st.session_active = true)
    (hs : st.has_uncommitted_changes = true → r.stagedAfterAdd = true) :
    (end_experimental_session ts st r).1 = none
    ∧ (end_experimental_session ts st r).2.2.head = r.head
    ∧ (end_experimental_session ts st r).2.2.branches = r.branches
    ∧ (end_experimental_session ts st r).2.2.commitCount
        = r.commitCount + (if st.has_uncommitted_changes then 1 else 0)
    ∧ (end_experimental_session ts st r).2.1.manage_submodules = st.manage_submodules
    ∧ (end_experimental_session ts st r).2.1.parent_branch = st.parent_branch := by
  rcases hd : st.has_uncommitted_changes with _ | _
  · simp [end_experimental_session, ha, hd, refreshDyn_repo, refreshDyn_state,
      refresh_queries_state]
  · have hstag := hs hd
    rcases hm : st.manage_submodules with _ | _
    · simp [end_experimental_session, commit_session_changes, ha, hd, hm, hstag,
        Repo.log, Repo.doCommit, refreshDyn_repo, refreshDyn_state, refresh_queries_state]
    · simp [end_experimental_session, commit_session_changes, commit_submodule_changes_eq,
        ha, hd, hm, hstag, Repo.log, Repo.doCommit, refreshDyn_repo, refreshDyn_state,
        refresh_queries_state]

/-- C4: return_to_parent_branch called with an empty recorded parent branch
fails with the no-parent-recorded error before issuing any repository command
(repository, history and cached state unchanged); when a parent branch is
recorded and a session is active it first performs end_experimental_session
(which commits exactly one final snapshot when the cached dirty flag is set -
provided those changes are stageable - and never switches branches), then,
when submodule management is enabled, restores submodules, then switches to
the parent branch and refreshes: the commands recorded after the end and
restore phases are exactly the parent checkout followed by the three refresh
queries, no further commit happens after the end phase, and the final branch
is the parent branch. -/
theorem c4_return_to_parent (ts : Str) (st0 : SessionState) (r0 : Repo)
    (st : SessionState) (r : Repo)
    (h0 : st0.parent_branch = [])
    (hp : st.parent_branch ≠ [])
    (ha : st.session_active = true)
    (hb : st.parent_branch ∈ r.branches)
    (hs : st.has_uncommitted_changes = true → r.stagedAfterAdd = true) :
    (return_to_parent_branch ts st0 r0 = (some OpError.noParentRecorded, st0, r0))
    ∧ (return_to_parent_branch ts st r).1 = none
    ∧ (return_to_parent_branch ts st r).2.2.head = st.parent_branch
    ∧ (return_to_parent_branch ts st r).2.1.current_branch = st.parent_branch
    ∧ (end_experimental_session ts st r).2.2.head = r.head
    ∧ (end_experimental_session ts st r).2.2.commitCount
        = r.commitCount + (if st.has_uncommitted_changes then 1 else 0)
    ∧ (return_to_parent_branch ts st r).2.2.commitCount
        = (end_experimental_session ts st r).2.2.commitCount
    ∧ (return_to_parent_branch ts st r).2.2.history
        = (if st.manage_submodules
            then return_submodules_to_parent_branch (end_experimental_session ts st r).2.2
            else (end_experimental_session ts st r).2.2).history
          ++ [GitCmd.checkout st.parent_branch, GitCmd.revParseAbbrevHead,
              GitCmd.revParseHead, GitCmd.statusPorcelain (!st.manage_submodules)] := by
  obtain ⟨he, hhead, hbr, hcnt, hman, hpar⟩ := end_session_facts ts st r ha hs
  have hpe : st.parent_branch.isEmpty = false := by
    cases hq : st.parent_branch with
    | nil => exact absurd hq hp
    | cons c cs => rfl
  rcases hEnd : end_experimental_session ts st r with ⟨e, st1, r1⟩
  rw [hEnd] at he hhead hbr hcnt hman hpar
  have he2 : e = none := he
  subst he2
  simp at hhead hbr hcnt hman hpar
  have hA : return_to_parent_branch ts st0 r0 = (some OpError.noParentRecorded, st0, r0) := by
    simp [return_to_parent_branch, h0]
  rcases hm2 : st1.manage_submodules with _ | _
  · have hm3 : st.manage_submodules = false := by rw [← hman, hm2]
    refine ⟨hA, ?_, ?_, ?_, ?_, ?_, ?_, ?_⟩ <;>
      simp [return_to_parent_branch, hpe, ha, hEnd, hm2, hm3, Repo.log, hbr, hb,
        refreshDyn_repo, refreshDyn_state, refresh_queries_state, List.append_assoc,
        hcnt, hhead]
  · have hm3 : st.manage_submodules = true := by rw [← hman, hm2]
    have hpres := return_submodules_preserves r1
    refine ⟨hA, ?_, ?_, ?_, ?_, ?_, ?_, ?_⟩ <;>
      simp [return_to_parent_branch, hpe, ha, hEnd, hm2, hm3, Repo.log, hbr, hb,
        hpres.1, hpres.2.1, hpres.2.2.2.2.2, refreshDyn_repo, refreshDyn_state,
        refresh_queries_state, List.append_assoc, hcnt, hhead]

/-- Witness for C4 at concrete inputs: with no parent recorded the operation
fails with the no-parent-recorded error and changes nothing; with the parent
"main" recorded and an active clean session it succeeds and lands on the
parent branch. -/
theorem c4_return_to_parent_witness :
    return_to_parent_branch [] stMain rMain
        = (some OpError.noParentRecorded, stMain, rMain)
    ∧ (return_to_parent_branch [] stActive rMain).1 = none
    ∧ (return_to_parent_branch [] stActive rMain).2.2.head = stActive.parent_branch := by
  have h := c4_return_to_parent [] stMain rMain stActive rMain rfl (by decide) rfl
    (by decide) (by decide)
  exact ⟨h.1, h.2.1, h.2.2.1⟩

theorem strStartsWith_append_left {a p : Str} (b : Str)
    (h : strStartsWith a p = true) : strStartsWith (a ++ b) p = true := by
  induction p generalizing a with
  | nil => simp [strStartsWith_nil]
  | cons q ps ih =>
    cases a with
    | nil => simp [strStartsWith] at h
    | cons c as =>
      simp [strStartsWith] at h ⊢
      exact ⟨h.1, ih h.2⟩

theorem generate_startsWith (t : DateTime) (st : SessionState) :
    strStartsWith (generate_session_branch_name t st).1 sessionDash = true := by
  rcases hn : st.session_name.isEmpty with _ | _ <;>
    · simp [generate_session_branch_name, hn]
      first
        | exact strStartsWith_append_left _
            (strStartsWith_append_left _
              (strStartsWith_append_self sessionDash (strftime_yymmdd_hhmmss t)))
        | exact strStartsWith_append_self sessionDash (strftime_yymmdd_hhmmss t)

theorem probe_some_startsWith (p : Str) : ∀ (fuel : Nat) (r : Repo)
    (orig name0 : Str) (counter : Nat) (nm : Str) (r2 : Repo),
    strStartsWith name0 p = true → strStartsWith orig p = true →
    probe_branch_name r orig fuel name0 counter = (some nm, r2) →
    strStartsWith nm p = true := by
  intro fuel
  induction fuel with
  | zero =>
    intro r orig name0 counter nm r2 h1 h2 h3
    simp [probe_branch_name] at h3
  | succ fuel ih =>
    intro r orig name0 counter nm r2 h1 h2 h3
    by_cases hc : name0 ∈ r.branches
    · simp only [probe_branch_name] at h3
      rw [if_pos (by simpa [Repo.log] using hc)] at h3
      exact ih _ _ _ _ _ _
        (strStartsWith_append_left _ (strStartsWith_append_left _ h2)) h2 h3
    · simp [probe_branch_name, Repo.log, hc] at h3
      rw [← h3.1]
      exact h1

theorem startInSubsGo_preserves (bn : Str) :
    ∀ (l : List SubState) (r : Repo),
      (startInSubsGo bn l r).2.2.head = r.head
      ∧ (startInSubsGo bn l r).2.2.branches = r.branches
      ∧ (startInSubsGo bn l r).2.2.statusFull = r.statusFull
      ∧ (startInSubsGo bn l r).2.2.statusIgnoreSub = r.statusIgnoreSub
      ∧ (startInSubsGo bn l r).2.2.stagedAfterAdd = r.stagedAfterAdd
      ∧ (startInSubsGo bn l r).2.2.commitCount = r.commitCount := by
  intro l
  induction l with
  | nil => intro r; simp [startInSubsGo]
  | cons sub rest ih =>
    intro r
    by_cases hc : bn ∈ sub.branches <;>
      simp [startInSubsGo, Repo.log, hc, ih]

theorem start_in_subs_preserves (bn : Str) (r : Repo) :
    (start_session_in_submodules bn r).head = r.head
    ∧ (start_session_in_submodules bn r).branches = r.branches
    ∧ (start_session_in_submodules bn r).statusFull = r.statusFull
    ∧ (start_session_in_submodules bn r).statusIgnoreSub = r.statusIgnoreSub
    ∧ (start_session_in_submodules bn r).stagedAfterAdd = r.stagedAfterAdd
    ∧ (start_session_in_submodules bn r).commitCount = r.commitCount := by
  rcases hs : r.subs.isEmpty with _ | _
  · refine ⟨?_, ?_, ?_, ?_, ?_, ?_⟩ <;>
      · simp [start_session_in_submodules, Repo.log, hs, startInSubsGo_preserves]
        try (split <;> rfl)
  · simp [start_session_in_submodules, Repo.log, hs]

theorem commit_initial_preserves (ts bn : Str) (r : Repo) :
    (commit_initial_session_state ts bn r).1 = none
    ∧ (commit_initial_session_state ts bn r).2.head = r.head
    ∧ (commit_initial_session_state ts bn r).2.branches = r.branches := by
  rcases h1 : (strTrim r.statusFull).isEmpty with _ | _
  · rcases h2 : r.stagedAfterAdd with _ | _ <;>
      simp [commit_initial_session_state, Repo.log, Repo.doCommit, h1, h2]
  · simp [commit_initial_session_state, Repo.log, Repo.doCommit, h1]

theorem replaceFirst_of_append {pat : Str} (hne : pat ≠ []) (x : Str) :
    replaceFirst (pat ++ x) pat [] = x := by
  cases pat with
  | nil => exact absurd rfl hne
  | cons c ps =>
    have hsw : strStartsWith ((c :: ps) ++ x) (c :: ps) = true :=
      strStartsWith_append_self _ _
    simp only [List.cons_append] at hsw ⊢
    simp [replaceFirst, hsw, List.drop_left]

theorem generate_snd_fields (t : DateTime) (st : SessionState) :
    (generate_session_branch_name t st).2.parent_branch = st.parent_branch
    ∧ (generate_session_branch_name t st).2.manage_submodules = st.manage_submodules
    ∧ (generate_session_branch_name t st).2.current_branch = st.current_branch := by
  rcases hn : st.session_name.isEmpty with _ | _ <;>
    simp [generate_session_branch_name, hn]


theorem create_session_tag_eq (ts bn tt : Str) (r : Repo) :
    create_session_tag ts bn tt r
      = { r with
          tags := r.tags ++ [tt ++ "-".data ++ bn]
        , history := r.history ++ [GitCmd.tagAnnotated (tt ++ "-".data ++ bn) (tagMsgText tt bn ts)] } := by
  simp [create_session_tag, Repo.log]

theorem start_finishing_facts (m bn : Str) (st : SessionState) (r : Repo) :
    (start_finishing m bn st r).1 = none
    ∧ (start_finishing m bn st r).2.2.head = r.head
    ∧ (start_finishing m bn st r).2.2.branches = r.branches
    ∧ (start_finishing m bn st r).2.1.parent_branch = st.parent_branch
    ∧ (start_finishing m bn st r).2.1.manage_submodules = st.manage_submodules
    ∧ (start_finishing m bn st r).2.1.session_name = st.session_name
    ∧ (start_finishing m bn st r).2.1.current_branch = r.head
    ∧ (start_finishing m bn st r).2.1.session_active = strStartsWith r.head sessionDash
    ∧ (start_finishing m bn st r).2.1.session_branch
        = (if strStartsWith r.head sessionDash then r.head else []) := by
  rcases hin : commit_initial_session_state m bn r with ⟨e3, r3⟩
  have hpres := commit_initial_preserves m bn r
  rw [hin] at hpres
  simp at hpres
  obtain ⟨he3, hh3, hb3⟩ := hpres
  subst he3
  rcases hssw : strStartsWith r.head sessionDash with _ | _ <;>
    simp [start_finishing, hin, create_session_tag_eq, refreshDyn_repo, refreshDyn_state,
      refresh_queries_state, hh3, hb3, hssw]

theorem start_state_facts (t : DateTime) (m : Str) (st : SessionState) (r : Repo) :
    (start_experimental_session t m st r).2.1.parent_branch = st.current_branch
    ∧ (start_experimental_session t m st r).2.1.manage_submodules = st.manage_submodules
    ∧ ((start_experimental_session t m st r).1 = none →
        (start_experimental_session t m st r).2.1.current_branch
            = (start_experimental_session t m st r).2.2.head
        ∧ (start_experimental_session t m st r).2.1.session_active = true
        ∧ (start_experimental_session t m st r).2.1.session_branch
            = (start_experimental_session t m st r).2.2.head) := by
  simp only [start_experimental_session]
  split
  next rp heq => simp [generate_snd_fields]
  next nm rp heq =>
    have hsw : strStartsWith nm sessionDash = true :=
      probe_some_startsWith sessionDash _ _ _ _ _ _ _
        (generate_startsWith t _) (generate_startsWith t _) heq
    split <;>
      (split <;>
        rcases hm : st.manage_submodules with _ | _ <;>
          simp [Repo.log, hm, hsw, generate_snd_fields, start_finishing_facts,
            start_in_subs_preserves])

/-- Iterated session starts: each entry provides the now() inputs of one
start_experimental_session call; execution stops at the first failure. -/
def startN : List (DateTime × Str) → SessionState → Repo →
    Option OpError × SessionState × Repo
  | [], st, r => (none, st, r)
  | (t, m) :: rest, st, r =>
    match start_experimental_session t m st r with
    | (none, st, r) => startN rest st r
    | (some e, st, r) => (some e, st, r)

theorem startN_append (a b : List (DateTime × Str)) :
    ∀ st r, startN (a ++ b) st r
      = (match startN a st r with
         | (none, st, r) => startN b st r
         | (some e, st, r) => (some e, st, r)) := by
  induction a with
  | nil => intro st r; simp [startN]
  | cons x rest ih =>
    intro st r
    rcases x with ⟨t, m⟩
    rcases hs : start_experimental_session t m st r with ⟨e, st1, r1⟩
    cases e with
    | none => simp [startN, hs, ih]
    | some e0 => simp [startN, hs]

/-- C7: start_experimental_session invoked while a session is already active
is permitted (no guard rejects it) and unconditionally overwrites
parent_branch with the cached current branch at the time of the call; hence
after a successful sequence of starts followed by one more, the final
parent_branch equals the current branch left by the preceding starts, and
after any nonempty successful sequence the current branch is the active
session branch itself - so repeated nested starts record the previous
session branch, not the original root branch, as parent. -/
theorem c7_nested_starts :
    (∀ (t : DateTime) (m : Str) (st : SessionState) (r : Repo),
        (start_experimental_session t m st r).2.1.parent_branch = st.current_branch)
    ∧ (∀ (steps : List (DateTime × Str)) (x : DateTime × Str)
          (st : SessionState) (r : Repo),
        (startN (steps ++ [x]) st r).1 = none →
        (startN (steps ++ [x]) st r).2.1.parent_branch
          = (startN steps st r).2.1.current_branch)
    ∧ (∀ (steps : List (DateTime × Str)) (st : SessionState) (r : Repo),
        steps ≠ [] → (startN steps st r).1 = none →
        (startN steps st r).2.1.session_active = true
        ∧ (startN steps st r).2.1.session_branch
            = (startN steps st r).2.1.current_branch) := by
  refine ⟨fun t m st r => (start_state_facts t m st r).1, ?_, ?_⟩
  · intro steps x st r h
    rcases hsp : startN steps st r with ⟨e0, st1, r1⟩
    rw [startN_append, hsp] at h ⊢
    cases e0 with
    | some e0 => simp at h
    | none =>
      rcases x with ⟨t, m⟩
      rcases hst : start_experimental_session t m st1 r1 with ⟨e1, st2, r2⟩
      cases e1 with
      | some e1 => simp [startN, hst] at h
      | none =>
        have hp := (start_state_facts t m st1 r1).1
        rw [hst] at hp
        simp [startN, hst]
        exact hp
  · intro steps st r hne h
    rcases List.eq_nil_or_concat steps with rfl | ⟨init, last, rfl⟩
    · exact absurd rfl hne
    · rw [List.concat_eq_append] at h ⊢
      rcases hsp : startN init st r with ⟨e0, st1, r1⟩
      rw [startN_append, hsp] at h ⊢
      cases e0 with
      | some e0 => simp at h
      | none =>
        rcases last with ⟨t, m⟩
        rcases hst : start_experimental_session t m st1 r1 with ⟨e1, st2, r2⟩
        cases e1 with
        | some e1 => simp [startN, hst] at h
        | none =>
          have hf := (start_state_facts t m st1 r1).2.2
          rw [hst] at hf
          have hf2 := hf rfl
          simp [startN, hst]
          exact ⟨hf2.2.1, hf2.2.2.trans hf2.1.symm⟩

/-- A second sample timestamp (2025-10-12 13:00:00). -/
def dt1 : DateTime := ⟨25, 10, 12, 13, 0, 0⟩

/-- Witness for C7 at concrete inputs: two successful nested starts from
"main"; after the second start the parent branch is the first session branch,
and after the first start the session is active. -/
theorem c7_nested_starts_witness :
    (start_experimental_session dt0 [] stMain rMain).2.1.parent_branch
        = stMain.current_branch
    ∧ (startN ([(dt0, [])] ++ [(dt1, [])]) stMain rMain).2.1.parent_branch
        = (startN [(dt0, [])] stMain rMain).2.1.current_branch
    ∧ (startN [(dt0, [])] stMain rMain).2.1.session_active = true := by
  have h := c7_nested_starts
  refine ⟨h.1 dt0 [] stMain rMain,
    h.2.1 [(dt0, [])] (dt1, []) stMain rMain (by decide),
    (h.2.2 [(dt0, [])] stMain rMain (by simp) (by decide)).1⟩

theorem generate_fst_parent (t : DateTime) (st : SessionState) (p : Str) :
    (generate_session_branch_name t { st with parent_branch := p }).1
      = (generate_session_branch_name t st).1 := by
  rcases hn : st.session_name.isEmpty with _ | _ <;>
    simp [generate_session_branch_name, hn]

/-- A repository in which the branch generated for the name "Trial" at dt0
already exists. -/
def rTrial : Repo :=
  { rMain with branches := ["session-251012-123456-Trial".data, "main".data] }

/-- C10: start_experimental_session does not preserve the user-supplied
session-name setting: any call with a nonempty session name overwrites the
setting with the sanitized name, and when a collision suffix is applied the
setting is further overwritten with the entire resolved branch name minus the
"session-" prefix, including the generated timestamp and the numeric suffix
(the name "Trial" can become "251012-123456-Trial-1"), so a subsequent start
embeds the old timestamp inside the new branch name. -/
theorem c10_session_name_overwritten :
    (∀ (t : DateTime) (st : SessionState), st.session_name ≠ [] →
        (generate_session_branch_name t st).2.session_name
          = sanitizeSessionName st.session_name)
    ∧ (∀ (t : DateTime) (m : Str) (st : SessionState) (r : Repo),
        st.session_name ≠ [] →
        (generate_session_branch_name t st).1 ∈ r.branches →
        (generate_session_branch_name t st).1 ++ "-".data ++ (Nat.repr 1).data
            ∉ r.branches →
        (start_experimental_session t m st r).2.1.session_name
          = strftime_yymmdd_hhmmss t ++ "-".data ++ sanitizeSessionName st.session_name
              ++ "-".data ++ (Nat.repr 1).data)
    ∧ (start_experimental_session dt0 []
          { stMain with session_name := "Trial".data } rTrial).2.1.session_name
        = "251012-123456-Trial-1".data
    ∧ (generate_session_branch_name dt1
          { stMain with session_name := "251012-123456-Trial-1".data }).1
        = "session-251012-130000-251012-123456-Trial-1".data := by
  have hmain : ∀ (t : DateTime) (m : Str) (st : SessionState) (r : Repo),
      st.session_name ≠ [] →
      (generate_session_branch_name t st).1 ∈ r.branches →
      (generate_session_branch_name t st).1 ++ "-".data ++ (Nat.repr 1).data
          ∉ r.branches →
      (start_experimental_session t m st r).2.1.session_name
        = strftime_yymmdd_hhmmss t ++ "-".data ++ sanitizeSessionName st.session_name
            ++ "-".data ++ (Nat.repr 1).data := by
    intro t m st r hname hbase hfree
    have hn : st.session_name.isEmpty = false := by
      cases hq : st.session_name with
      | nil => exact absurd hq hname
      | cons a b => rfl
    have hB : (generate_session_branch_name t st).1
        = sessionTag ++ "-".data ++ strftime_yymmdd_hhmmss t ++ "-".data
            ++ sanitizeSessionName st.session_name := by
      simp [generate_session_branch_name, hn]
    have hne2 : (generate_session_branch_name t st).1 ++ "-".data ++ (Nat.repr 1).data
        ≠ (generate_session_branch_name t st).1 := by
      intro hcontra
      have hlencontra := congrArg List.length hcontra
      simp [List.length_append] at hlencontra
    have hrepl : replaceFirst
        ((generate_session_branch_name t st).1 ++ "-".data ++ (Nat.repr 1).data)
        (sessionTag ++ "-".data) []
        = strftime_yymmdd_hhmmss t ++ "-".data ++ sanitizeSessionName st.session_name
            ++ "-".data ++ (Nat.repr 1).data := by
      rw [hB]
      have harg : sessionTag ++ "-".data ++ strftime_yymmdd_hhmmss t ++ "-".data
            ++ sanitizeSessionName st.session_name ++ "-".data ++ (Nat.repr 1).data
          = (sessionTag ++ "-".data) ++ (strftime_yymmdd_hhmmss t ++ "-".data
              ++ sanitizeSessionName st.session_name ++ "-".data ++ (Nat.repr 1).data) := by
        simp [List.append_assoc]
      rw [harg]
      exact replaceFirst_of_append (by decide) _
    have hg1 := generate_fst_parent t st st.current_branch
    simp only [start_experimental_session]
    rw [hg1]
    obtain ⟨len1, hlen⟩ : ∃ k, r.branches.length = k + 1 :=
      ⟨r.branches.length - 1, by
        have := List.length_pos.mpr (List.ne_nil_of_mem hbase)
        omega⟩
    rw [hlen, probe_step_exists hbase,
      probe_step_free (by simpa [Repo.log] using hfree)]
    have hfree2 : (generate_session_branch_name t st).1 ++ "-".data ++ (Nat.repr 1).data
        ∉ ((r.log (GitCmd.showRef (generate_session_branch_name t st).1)).log
            (GitCmd.showRef ((generate_session_branch_name t st).1 ++ "-".data
              ++ (Nat.repr 1).data))).branches := by
      simpa [Repo.log] using hfree
    have hfree3 : ¬((generate_session_branch_name t st).1 ++ '-' :: (Nat.repr 1).data
        ∈ r.branches) := by simpa using hfree
    rcases hm : st.manage_submodules with _ | _ <;>
      simp [Repo.log, hne2, hm, hfree3, hfree2, generate_snd_fields,
        start_finishing_facts, start_in_subs_preserves] <;>
      simpa using hrepl
  refine ⟨?_, hmain, ?_, ?_⟩
  · intro t st hname
    have hn : st.session_name.isEmpty = false := by
      cases hq : st.session_name with
      | nil => exact absurd hq hname
      | cons a b => rfl
    simp [generate_session_branch_name, hn]
  · exact (hmain dt0 [] { stMain with session_name := "Trial".data } rTrial
      (by decide) (by decide) (by decide)).trans (by decide)
  · decide

/-- Witness for C10 at concrete inputs: "Trial" is sanitized in place, and
under a collision the setting receives the resolved name minus the session
prefix. -/
theorem c10_session_name_overwritten_witness :
    (generate_session_branch_name dt0
        { stMain with session_name := "Trial".data }).2.session_name = "Trial".data
    ∧ (start_experimental_session dt0 []
          { stMain with session_name := "Trial".data } rTrial).2.1.session_name
        = strftime_yymmdd_hhmmss dt0 ++ "-".data
            ++ sanitizeSessionName "Trial".data ++ "-".data ++ (Nat.repr 1).data := by
  have h := c10_session_name_overwritten
  exact ⟨(h.1 dt0 { stMain with session_name := "Trial".data } (by decide)).trans
      (by decide),
    h.2.1 dt0 [] { stMain with session_name := "Trial".data } rTrial
      (by decide) (by decide) (by decide)⟩

/-- The tool signature line appearing in the generated messages. -/
def toolSig : Str := "ScopeFoundry Git Session Manager".data

/-- Modelled from the spec: the section 6 commit message template, with tag
one of Start, Initial state for, Progress, Final, an arbitrary middle part
before "experimental session:", a Session Details block listing the branch,
the start timestamp and the tool signature line, and a Generated-with
trailer. -/
def specTemplateMsg (tag mid bn ts sig : Str) : Str :=
  tag ++ mid ++ " experimental session: ".data ++ bn
    ++ "\n\nSession Details:\n- Branch: ".data ++ bn
    ++ "\n- Started: ".data ++ ts
    ++ "\n- ".data ++ sig
    ++ "\n\nGenerated with ".data ++ sig

/-- Modelled from the spec: a commit message follows the section 6 template. -/
def FollowsTemplate (m : Str) : Prop :=
  ∃ tag mid bn ts,
    (tag = "Start".data ∨ tag = "Initial state for".data
      ∨ tag = "Progress".data ∨ tag = "Final".data)
    ∧ m = specTemplateMsg tag mid bn ts toolSig

theorem followsTemplate_infix {m : Str} (h : FollowsTemplate m) :
    "Session Details:".data <:+: m := by
  obtain ⟨tag, mid, bn, ts, _, hm⟩ := h
  subst hm
  refine ⟨tag ++ mid ++ " experimental session: ".data ++ bn ++ "\n\n".data,
    "\n- Branch: ".data ++ bn ++ "\n- Started: ".data ++ ts ++ "\n- ".data ++ toolSig
      ++ "\n\nGenerated with ".data ++ toolSig, ?_⟩
  simp [specTemplateMsg, List.append_assoc]

/-- A sample active state with the cached dirty flag set. -/
def stActiveDirty : SessionState := { stActive with has_uncommitted_changes := true }

/-- C9 (amended): the Start and Initial-state commit messages follow the
section 6 template exactly; the Progress and Final messages produced by
commit_session_changes do not: they consist of the first line, a single
completed-at or updated-at line with the timestamp, and the Generated-with
trailer, without the Session Details block.  The commit command recorded by
commit_session_changes carries exactly the Progress or Final message
depending on the final flag. -/
theorem c9_commit_message_template (bn ts : Str) (final : Bool)
    (st : SessionState) (r : Repo)
    (ha : st.session_active = true) (hd : st.has_uncommitted_changes = true)
    (hstag : r.stagedAfterAdd = true) (hm : st.manage_submodules = false) :
    FollowsTemplate (startCommitMsg bn ts)
    ∧ FollowsTemplate (initialCommitMsg bn ts)
    ∧ (commit_session_changes ts final st r).2.2.history
        = r.history ++ [GitCmd.addAll,
            GitCmd.commitCmd false
              (if final then finalCommitMsg st.session_branch ts
               else progressCommitMsg st.session_branch ts),
            GitCmd.revParseAbbrevHead, GitCmd.revParseHead, GitCmd.statusPorcelain true]
    ∧ finalCommitMsg bn ts
        = "Final commit for experimental session: ".data ++ bn
          ++ "\n\nSession completed at: ".data ++ ts
          ++ "\n\nGenerated with ".data ++ toolSig
    ∧ progressCommitMsg bn ts
        = "Progress commit for experimental session: ".data ++ bn
          ++ "\n\nUpdated at: ".data ++ ts
          ++ "\n\nGenerated with ".data ++ toolSig := by
  refine ⟨⟨"Start".data, [], bn, ts, Or.inl rfl, ?_⟩,
    ⟨"Initial state for".data, [], bn, ts, Or.inr (Or.inl rfl), ?_⟩, ?_, ?_, ?_⟩
  · simp [specTemplateMsg, startCommitMsg, toolSig, List.append_assoc]
  · simp [specTemplateMsg, initialCommitMsg, toolSig, List.append_assoc]
  · rcases final with _ | _ <;>
      simp [commit_session_changes, ha, hd, hm, hstag, Repo.log, Repo.doCommit,
        refreshDyn_repo, List.append_assoc]
  · simp [finalCommitMsg, toolSig, List.append_assoc]
  · simp [progressCommitMsg, toolSig, List.append_assoc]

/-- Witness for C9 (amended) at concrete inputs: a final commit on an active
dirty session records the Final message on the commit command. -/
theorem c9_commit_message_template_witness :
    (commit_session_changes "2025-01-01 00:00:01".data true stActiveDirty
        rDirtyStaged).2.2.history
      = rDirtyStaged.history ++ [GitCmd.addAll,
          GitCmd.commitCmd false
            (if true then finalCommitMsg stActiveDirty.session_branch
                "2025-01-01 00:00:01".data
             else progressCommitMsg stActiveDirty.session_branch
                "2025-01-01 00:00:01".data),
          GitCmd.revParseAbbrevHead, GitCmd.revParseHead,
          GitCmd.statusPorcelain true] :=
  (c9_commit_message_template sBr "2025-01-01 00:00:01".data true stActiveDirty
    rDirtyStaged rfl rfl rfl rfl).2.2.1

/-- C9 counterexample: the claim fails as stated.  The Final commit message
produced by commit_session_changes on the session branch does not follow the
section 6 template: it contains no Session Details block at all. -/
theorem c9_counterexample :
    (commit_session_changes "2025-01-01 00:00:00".data true stActiveDirty
        rDirtyStaged).2.2.history
      = rDirtyStaged.history ++ [GitCmd.addAll,
          GitCmd.commitCmd false (finalCommitMsg sBr "2025-01-01 00:00:00".data),
          GitCmd.revParseAbbrevHead, GitCmd.revParseHead, GitCmd.statusPorcelain true]
    ∧ ¬ FollowsTemplate (finalCommitMsg sBr "2025-01-01 00:00:00".data) := by
  constructor
  · decide
  · intro h
    have hinf := followsTemplate_infix h
    have : ¬ ("Session Details:".data
        <:+: finalCommitMsg sBr "2025-01-01 00:00:00".data) := by decide
    exact this hinf
